import Mathlib

/-
Verification of the zone-based spatial analysis and polling-driven
analysis-lifecycle core of the Soil-Health-Monitoring repository.

The definitions below are shallow embeddings of the TypeScript/SQL source:
- health-score classification from
  frontend/src/components/FarmerDashboard/HealthGauge.tsx (getHealthConfig)
  and frontend/src/components/Analysis/ZoneMap.tsx (getHealthColor);
- zone bounding-box computation from the ZoneMapOverlay component
  (calculateZoneBounds), with JS numbers embedded as real numbers;
- the farms table CHECK constraints from
  supabase/migrations/001_initial_schema.sql;
- the analysis polling loops of
  frontend/src/app/dashboard/farms/[id]/page.tsx
  (handleSoilHealthOnly / handleROIOnly), with the analysis store
  abstracted as a map from fetch number to the fetched record;
- the area-to-grid tier table (modelled from the spec, see gridTier).
-/

/-! ## Health-score classification

Embeds getHealthConfig from HealthGauge.tsx and getHealthColor from
ZoneMap.tsx.  Scores are JS numbers, embedded as rationals. -/

structure HealthConfig where
  color : String
  bgColor : String
  label : String
  emoji : String
  deriving DecidableEq, Repr

def getHealthConfig (score : ℚ) : HealthConfig :=
  if score ≥ 75 then
    { color := "#22c55e", bgColor := "#dcfce7", label := "Healthy", emoji := "🌱" }
  else if score ≥ 55 then
    { color := "#eab308", bgColor := "#fef9c3", label := "Moderate", emoji := "🌿" }
  else if score ≥ 35 then
    { color := "#f97316", bgColor := "#ffedd5", label := "Needs Attention", emoji := "⚠️" }
  else
    { color := "#ef4444", bgColor := "#fee2e2", label := "Critical", emoji := "🚨" }

def getHealthColor (health : ℚ) : String :=
  if health ≥ 75 then "bg-green-500"
  else if health ≥ 55 then "bg-yellow-500"
  else if health ≥ 35 then "bg-orange-500"
  else "bg-red-500"

/-! ## Grid tier selection -/

/-- Modelled from the spec: the backend function selecting grid dimensions
and source resolution from the farm area (spec section 4.1, also documented
in the repository README under Dynamic Grid System) is not part of the
sources under src/; this definition follows the spec table.
Result: (rows, cols, nominal source resolution in meters). -/
def gridTier (area : ℚ) : ℕ × ℕ × ℕ :=
  if area < 2 then (2, 2, 10)
  else if area < 10 then (3, 3, 10)
  else if area < 50 then (4, 4, 30)
  else (5, 5, 30)

/-! ## Farm records and the schema constraints

Embeds the farms table of supabase/migrations/001_initial_schema.sql.
Numeric columns are embedded as rationals, dates as day numbers. -/

structure FarmRow where
  name : String
  location_lat : ℚ
  location_lng : ℚ
  area_hectares : ℚ
  planting_date : Option ℤ
  harvest_date : Option ℤ
  deriving DecidableEq, Repr

/-- The valid_dates CHECK constraint:
planting_date IS NULL OR harvest_date IS NULL OR harvest_date > planting_date,
with the comparison strict as in the SQL source. -/
def validDatesCheck (p h : Option ℤ) : Bool :=
  match p, h with
  | some pd, some hd => decide (hd > pd)
  | _, _ => true

/-- Conjunction of the CHECK constraints on the farms table:
area_hectares > 0, valid_coordinates, valid_dates. -/
def farmsCheck (r : FarmRow) : Prop :=
  r.area_hectares > 0 ∧
  (r.location_lat ≥ -90 ∧ r.location_lat ≤ 90 ∧
   r.location_lng ≥ -180 ∧ r.location_lng ≤ 180) ∧
  validDatesCheck r.planting_date r.harvest_date = true

instance (r : FarmRow) : Decidable (farmsCheck r) := by
  unfold farmsCheck; infer_instance

/-- Inserting a farm row: the database accepts the row exactly when every
CHECK constraint holds, otherwise the insert is rejected and no record is
created. -/
def insertFarm (r : FarmRow) : Option FarmRow :=
  if farmsCheck r then some r else none

/-! ## Analysis lifecycle and the polling loop

Embeds the polling loops of handleSoilHealthOnly and handleROIOnly in
frontend/src/app/dashboard/farms/[id]/page.tsx:

    let attempts = 0
    let finalReport = initialReport
    while (attempts < 30 && finalReport.status !== completed) \x7b
      if (finalReport.status === failed) throw Error("Analysis failed")
      await sleep(2000)
      finalReport = await get(initialReport.id)
      attempts++
    \x7d
    if (finalReport.status !== completed)
      throw Error("Analysis timeout - please try again")
    return finalReport

The analysis store is abstracted as a map sending the fetch number j
(1-based: the j-th call of getSoilHealthReport / getROIReport) to the
record it returns.  The loop is embedded with the remaining attempt budget
(maxAttempts - attempts) as the structural recursion argument, together
with the number of the next fetch; it returns the result delivered to the
caller and the trace of sleep and fetch events the run performs. -/

inductive AnalysisStatus where
  | pending
  | processing
  | completed
  | failed
  deriving DecidableEq, Repr

structure AnalysisRecord where
  status : AnalysisStatus
  error : Option String
  payload : Option String
  deriving DecidableEq, Repr

def maxAttempts : ℕ := 30

def pollIntervalMs : ℕ := 2000

def analysisFailedMsg : String := "Analysis failed"

def analysisTimeoutMsg : String := "Analysis timeout - please try again"

inductive PollEvent where
  | sleep (ms : ℕ)
  | fetch (j : ℕ)
  deriving DecidableEq, Repr

inductive PollResult where
  | success (report : AnalysisRecord)
  | failure (msg : String)
  deriving DecidableEq, Repr

def pollAux (store : ℕ → AnalysisRecord) :
    ℕ → ℕ → AnalysisRecord → PollResult × List PollEvent
  | 0, _, current =>
    if current.status = .completed then (.success current, [])
    else (.failure analysisTimeoutMsg, [])
  | fuel + 1, j, current =>
    if current.status = .completed then (.success current, [])
    else if current.status = .failed then (.failure analysisFailedMsg, [])
    else
      let next := pollAux store fuel (j + 1) (store j)
      (next.1, PollEvent.sleep pollIntervalMs :: PollEvent.fetch j :: next.2)

/-- The whole loop as run by the page: full attempt budget, the first store
fetch is fetch number 1, and the record returned by the creating call
(analyzeSoilHealth / analyzeROI) seeds finalReport. -/
def poll (store : ℕ → AnalysisRecord) (initial : AnalysisRecord) :
    PollResult × List PollEvent :=
  pollAux store maxAttempts 1 initial

/-- The event trace of n sleep-then-fetch rounds whose first fetch is
fetch number j. -/
def pollTrace : ℕ → ℕ → List PollEvent
  | 0, _ => []
  | n + 1, j => PollEvent.sleep pollIntervalMs :: PollEvent.fetch j :: pollTrace n (j + 1)

def isFetch : PollEvent → Bool
  | .fetch _ => true
  | .sleep _ => false

def isSleep : PollEvent → Bool
  | .sleep _ => true
  | .fetch _ => false

def fetchCount (tr : List PollEvent) : ℕ := (tr.filter isFetch).length

def sleepCount (tr : List PollEvent) : ℕ := (tr.filter isSleep).length

/-- A record is non-terminal when its status is pending or processing. -/
def nonTerminal (r : AnalysisRecord) : Prop :=
  r.status = .pending ∨ r.status = .processing

/-! ## Zone bounding boxes

Embeds calculateZoneBounds from the ZoneMapOverlay component (the zone grid
partitioner).  JS numbers are embedded as real numbers; the intermediate
let-bindings of the source become the named definitions below, in source
order. -/

noncomputable def sideLengthM (areaHectares : ℝ) : ℝ :=
  Real.sqrt (areaHectares * 10000)

noncomputable def latDegPerMeter : ℝ := 1 / 111320

/-- The divisor of the meters-to-longitude-degrees conversion,
111320 * cos(centerLat * PI / 180). -/
noncomputable def lonDegDivisor (centerLat : ℝ) : ℝ :=
  111320 * Real.cos (centerLat * Real.pi / 180)

noncomputable def lonDegPerMeter (centerLat : ℝ) : ℝ := 1 / lonDegDivisor centerLat

noncomputable def halfSideLat (areaHectares : ℝ) : ℝ :=
  (sideLengthM areaHectares / 2) * latDegPerMeter

noncomputable def halfSideLon (centerLat areaHectares : ℝ) : ℝ :=
  (sideLengthM areaHectares / 2) * lonDegPerMeter centerLat

noncomputable def farmNorth (centerLat areaHectares : ℝ) : ℝ :=
  centerLat + halfSideLat areaHectares

noncomputable def farmSouth (centerLat areaHectares : ℝ) : ℝ :=
  centerLat - halfSideLat areaHectares

noncomputable def farmWest (centerLat centerLon areaHectares : ℝ) : ℝ :=
  centerLon - halfSideLon centerLat areaHectares

noncomputable def farmEast (centerLat centerLon areaHectares : ℝ) : ℝ :=
  centerLon + halfSideLon centerLat areaHectares

noncomputable def zoneHeight (centerLat areaHectares : ℝ) (gridRows : ℕ) : ℝ :=
  (farmNorth centerLat areaHectares - farmSouth centerLat areaHectares) / gridRows

noncomputable def zoneWidth (centerLat centerLon areaHectares : ℝ) (gridCols : ℕ) : ℝ :=
  (farmEast centerLat centerLon areaHectares - farmWest centerLat centerLon areaHectares)
    / gridCols

/-- The bounds returned for the (row, col) cell, as a
((south, west), (north, east)) pair, mirroring the source's
[[south, west], [north, east]] return value. -/
noncomputable def calculateZoneBounds (centerLat centerLon areaHectares : ℝ)
    (gridRows gridCols row col : ℕ) : (ℝ × ℝ) × (ℝ × ℝ) :=
  let north := farmNorth centerLat areaHectares
    - row * zoneHeight centerLat areaHectares gridRows
  let south := north - zoneHeight centerLat areaHectares gridRows
  let west := farmWest centerLat centerLon areaHectares
    + col * zoneWidth centerLat centerLon areaHectares gridCols
  let east := west + zoneWidth centerLat centerLon areaHectares gridCols
  ((south, west), (north, east))

/-- The closed cell of the (row, col) zone, as a subset of the
latitude-times-longitude plane. -/
noncomputable def cellSet (centerLat centerLon areaHectares : ℝ)
    (gridRows gridCols row col : ℕ) : Set (ℝ × ℝ) :=
  let b := calculateZoneBounds centerLat centerLon areaHectares gridRows gridCols row col
  Set.Icc b.1.1 b.2.1 ×ˢ Set.Icc b.1.2 b.2.2

/-- The open interior of the (row, col) zone's cell. -/
noncomputable def openCellSet (centerLat centerLon areaHectares : ℝ)
    (gridRows gridCols row col : ℕ) : Set (ℝ × ℝ) :=
  let b := calculateZoneBounds centerLat centerLon areaHectares gridRows gridCols row col
  Set.Ioo b.1.1 b.2.1 ×ˢ Set.Ioo b.1.2 b.2.2

/-- The farm's bounding square. -/
noncomputable def farmSquare (centerLat centerLon areaHectares : ℝ) : Set (ℝ × ℝ) :=
  Set.Icc (farmSouth centerLat areaHectares) (farmNorth centerLat areaHectares)
    ×ˢ Set.Icc (farmWest centerLat centerLon areaHectares)
        (farmEast centerLat centerLon areaHectares)

/-! ## Statement-level vocabulary

Predicates packaging the properties the specification asserts, stated over
the embedded source functions, plus concrete sample inputs used to
instantiate the theorems. -/

/-- The health bands asserted by the spec, characterised through the two
embedded classification functions: each band holds exactly on its score
range, so every score is classified into exactly one band and the
boundaries 75, 55, 35 belong to the higher band. -/
def HealthBandsSpec (s : ℚ) : Prop :=
  ((getHealthConfig s).label = "Healthy" ∧ getHealthColor s = "bg-green-500"
    ↔ 75 ≤ s) ∧
  ((getHealthConfig s).label = "Moderate" ∧ getHealthColor s = "bg-yellow-500"
    ↔ 55 ≤ s ∧ s < 75) ∧
  ((getHealthConfig s).label = "Needs Attention" ∧ getHealthColor s = "bg-orange-500"
    ↔ 35 ≤ s ∧ s < 55) ∧
  ((getHealthConfig s).label = "Critical" ∧ getHealthColor s = "bg-red-500"
    ↔ s < 35)

/-- The tier table of spec section 4.1 as a characterisation: each tier is
selected exactly on its area range. -/
def GridTierSpec (a : ℚ) : Prop :=
  (gridTier a = (2, 2, 10) ↔ a < 2) ∧
  (gridTier a = (3, 3, 10) ↔ 2 ≤ a ∧ a < 10) ∧
  (gridTier a = (4, 4, 30) ↔ 10 ≤ a ∧ a < 50) ∧
  (gridTier a = (5, 5, 30) ↔ 50 ≤ a)

/-- The Farm invariant as the claim words it: positive area, latitude and
longitude in range, and, when both dates are set, harvest strictly after
planting. -/
def FarmInvariant (r : FarmRow) : Prop :=
  0 < r.area_hectares ∧
  -90 ≤ r.location_lat ∧ r.location_lat ≤ 90 ∧
  -180 ≤ r.location_lng ∧ r.location_lng ≤ 180 ∧
  (∀ p h, r.planting_date = some p → r.harvest_date = some h → p < h)

/-- The partition properties the spec asserts of the zone grid, stated over
calculateZoneBounds: the (row, col) cell is the corresponding band
intersection, the closed cells tile the farm square exactly, distinct open
cells are disjoint, vertically and horizontally adjacent cells share edges,
row 0 cells have the farm north edge and are the northernmost, column 0
cells have the farm west edge and are the westernmost, and cell
(rows-1, cols-1) closes the square at the farm south and east edges. -/
def ZonePartition (lat lon area : ℝ) (rows cols row col : ℕ) : Prop :=
  calculateZoneBounds lat lon area rows cols row col =
    ((farmNorth lat area - ((row : ℝ) + 1) * zoneHeight lat area rows,
      farmWest lat lon area + (col : ℝ) * zoneWidth lat lon area cols),
     (farmNorth lat area - (row : ℝ) * zoneHeight lat area rows,
      farmWest lat lon area + ((col : ℝ) + 1) * zoneWidth lat lon area cols)) ∧
  (⋃ r ∈ Finset.range rows, ⋃ c ∈ Finset.range cols,
      cellSet lat lon area rows cols r c)
    = farmSquare lat lon area ∧
  (∀ r c r' c', (r, c) ≠ (r', c') →
    Disjoint (openCellSet lat lon area rows cols r c)
      (openCellSet lat lon area rows cols r' c')) ∧
  (∀ r c, (calculateZoneBounds lat lon area rows cols r c).1.1
    = (calculateZoneBounds lat lon area rows cols (r + 1) c).2.1) ∧
  (∀ r c, (calculateZoneBounds lat lon area rows cols r c).2.2
    = (calculateZoneBounds lat lon area rows cols r (c + 1)).1.2) ∧
  (∀ c, (calculateZoneBounds lat lon area rows cols 0 c).2.1 = farmNorth lat area) ∧
  (∀ r, (calculateZoneBounds lat lon area rows cols r 0).1.2
    = farmWest lat lon area) ∧
  (∀ r r' c, r ≤ r' → (calculateZoneBounds lat lon area rows cols r' c).2.1
    ≤ (calculateZoneBounds lat lon area rows cols r c).2.1) ∧
  (∀ c c' r, c ≤ c' → (calculateZoneBounds lat lon area rows cols r c).1.2
    ≤ (calculateZoneBounds lat lon area rows cols r c').1.2) ∧
  (calculateZoneBounds lat lon area rows cols (rows - 1) (cols - 1)).1.1
    = farmSouth lat area ∧
  (calculateZoneBounds lat lon area rows cols (rows - 1) (cols - 1)).2.2
    = farmEast lat lon area

/-- A valid sample farm row. -/
def sampleFarm : FarmRow :=
  { name := "Sample", location_lat := 10, location_lng := 20,
    area_hectares := 5, planting_date := some 0, harvest_date := some 100 }

/-- A freshly created analysis record. -/
def pendingInit : AnalysisRecord := { status := .pending, error := none, payload := none }

/-- A store whose record is failed from the first fetch on, carrying a
stored error message. -/
def failStore : ℕ → AnalysisRecord :=
  fun _ => { status := .failed, error := some "sensor offline", payload := none }

/-- A store that stays processing on fetches 1..29 and is failed on
fetch 30, the last fetch of the attempt budget. -/
def lateFailStore : ℕ → AnalysisRecord :=
  fun j => if j < 30 then { status := .processing, error := none, payload := none }
    else { status := .failed, error := some "boom", payload := none }

/-- A store that never leaves processing. -/
def processingStore : ℕ → AnalysisRecord :=
  fun _ => { status := .processing, error := none, payload := none }

/-- A store whose record is completed from the first fetch on. -/
def completedStore : ℕ → AnalysisRecord :=
  fun _ => { status := .completed, error := none, payload := some "report" }

lemma pollTrace_fetchCount (n j : ℕ) : fetchCount (pollTrace n j) = n := by
  induction n generalizing j with
  | zero => rfl
  | succ m ih => simp [pollTrace, fetchCount, List.filter, isFetch, isSleep] at *; exact ih _

lemma pollTrace_sleepCount (n j : ℕ) : sleepCount (pollTrace n j) = n := by
  induction n generalizing j with
  | zero => rfl
  | succ m ih => simp [pollTrace, sleepCount, List.filter, isFetch, isSleep] at *; exact ih _

lemma nonTerminal_ne_completed {r : AnalysisRecord} (h : nonTerminal r) :
    ¬ r.status = .completed := by
  rcases h with h | h <;> simp [h]

lemma nonTerminal_ne_failed {r : AnalysisRecord} (h : nonTerminal r) :
    ¬ r.status = .failed := by
  rcases h with h | h <;> simp [h]

/-- If the current record is already completed, the loop exits at once with
no further fetch, whatever the remaining budget. -/
lemma pollAux_completed (store : ℕ → AnalysisRecord) (fuel j : ℕ)
    {current : AnalysisRecord} (h : current.status = .completed) :
    pollAux store fuel j current = (.success current, []) := by
  cases fuel <;> simp [pollAux, h]

/-- A run all of whose fetched records stay non-terminal performs one
sleep-and-fetch round per unit of budget and ends in the timeout failure. -/
lemma pollAux_nonterminal (store : ℕ → AnalysisRecord) :
    ∀ (fuel j : ℕ) (current : AnalysisRecord), nonTerminal current →
    (∀ i, j ≤ i → i < j + fuel → nonTerminal (store i)) →
    pollAux store fuel j current = (.failure analysisTimeoutMsg, pollTrace fuel j) := by
  intro fuel
  induction fuel with
  | zero =>
    intro j current hc _
    simp [pollAux, pollTrace, nonTerminal_ne_completed hc]
  | succ m ih =>
    intro j current hc hstore
    have hrec := ih (j + 1) (store j)
      (hstore j le_rfl (by omega))
      (fun i h1 h2 => hstore i (by omega) (by omega))
    simp [pollAux, pollTrace, nonTerminal_ne_completed hc, nonTerminal_ne_failed hc, hrec]

/-- A run that sees non-terminal records on its first n fetches and a
completed record on fetch number j + n returns that record as a success
after exactly n + 1 fetches. -/
lemma pollAux_completes (store : ℕ → AnalysisRecord) :
    ∀ (n fuel j : ℕ) (current : AnalysisRecord), nonTerminal current →
    n < fuel →
    (∀ i, j ≤ i → i < j + n → nonTerminal (store i)) →
    (store (j + n)).status = .completed →
    pollAux store fuel j current = (.success (store (j + n)), pollTrace (n + 1) j) := by
  intro n
  induction n with
  | zero =>
    intro fuel j current hc hfuel _ hcomp
    obtain ⟨m, rfl⟩ : ∃ m, fuel = m + 1 := ⟨fuel - 1, by omega⟩
    have hnext := pollAux_completed store m (j + 1) hcomp
    simp only [Nat.add_zero] at hcomp hnext ⊢
    simp [pollAux, pollTrace, nonTerminal_ne_completed hc, nonTerminal_ne_failed hc,
      hnext, hcomp]
  | succ m ih =>
    intro fuel j current hc hfuel hstore hcomp
    obtain ⟨f, rfl⟩ : ∃ f, fuel = f + 1 := ⟨fuel - 1, by omega⟩
    have hrec := ih f (j + 1) (store j)
      (hstore j le_rfl (by omega))
      (by omega)
      (fun i h1 h2 => hstore i (by omega) (by omega))
      (by have : j + 1 + m = j + (m + 1) := by omega
          rw [this]; exact hcomp)
    have harith : j + 1 + m = j + (m + 1) := by omega
    rw [harith] at hrec
    simp [pollAux, pollTrace, nonTerminal_ne_completed hc, nonTerminal_ne_failed hc, hrec]

/-- A run that sees non-terminal records on its first n fetches and a failed
record on fetch number j + n stops after that fetch: if budget remains the
loop body throws the fixed failure message, and if that fetch consumed the
last unit of budget the post-loop check throws the timeout message instead.
Either way no further fetch happens. -/
lemma pollAux_fails (store : ℕ → AnalysisRecord) :
    ∀ (n fuel j : ℕ) (current : AnalysisRecord), nonTerminal current →
    n < fuel →
    (∀ i, j ≤ i → i < j + n → nonTerminal (store i)) →
    (store (j + n)).status = .failed →
    pollAux store fuel j current =
      (.failure (if n + 1 < fuel then analysisFailedMsg else analysisTimeoutMsg),
       pollTrace (n + 1) j) := by
  intro n
  induction n with
  | zero =>
    intro fuel j current hc hfuel _ hfail
    obtain ⟨m, rfl⟩ : ∃ m, fuel = m + 1 := ⟨fuel - 1, by omega⟩
    simp only [Nat.add_zero] at hfail
    rcases Nat.eq_zero_or_pos m with rfl | hm
    · simp [pollAux, pollTrace, nonTerminal_ne_completed hc, nonTerminal_ne_failed hc, hfail]
    · have hlt : (0:ℕ) + 1 < m + 1 := by omega
      obtain ⟨m2, rfl⟩ : ∃ m2, m = m2 + 1 := ⟨m - 1, by omega⟩
      simp [pollAux, pollTrace, nonTerminal_ne_completed hc, nonTerminal_ne_failed hc, hfail]
  | succ m ih =>
    intro fuel j current hc hfuel hstore hfail
    obtain ⟨f, rfl⟩ : ∃ f, fuel = f + 1 := ⟨fuel - 1, by omega⟩
    have hrec := ih f (j + 1) (store j)
      (hstore j le_rfl (by omega))
      (by omega)
      (fun i h1 h2 => hstore i (by omega) (by omega))
      (by have : j + 1 + m = j + (m + 1) := by omega
          rw [this]; exact hfail)
    have hmsg : (if m + 1 < f then analysisFailedMsg else analysisTimeoutMsg)
        = (if m + 1 + 1 < f + 1 then analysisFailedMsg else analysisTimeoutMsg) := by
      by_cases hcase : m + 1 < f
      · rw [if_pos hcase, if_pos (by omega)]
      · rw [if_neg hcase, if_neg (by omega)]
    rw [hmsg] at hrec
    simp [pollAux, pollTrace, nonTerminal_ne_completed hc, nonTerminal_ne_failed hc, hrec]

/-! ### Interval partition helpers -/

/-- Descending bands: the n cells [b-(r+1)d, b-rd], r = 0..n-1, tile
[b-nd, b]. -/
lemma biUnion_Icc_desc (b d : ℝ) (hd : 0 ≤ d) :
    ∀ n : ℕ, (⋃ r ∈ Finset.range (n + 1),
        Set.Icc (b - ((r : ℝ) + 1) * d) (b - (r : ℝ) * d))
      = Set.Icc (b - ((n : ℝ) + 1) * d) b := by
  intro n
  induction n with
  | zero => simp
  | succ m ih =>
    rw [Finset.range_succ, Finset.set_biUnion_insert, ih]
    have h1 : b - (((m : ℝ) + 1) + 1) * d ≤ b - ((m : ℝ) + 1) * d := by nlinarith
    have h2 : b - ((m : ℝ) + 1) * d ≤ b := by nlinarith [show (0 : ℝ) ≤ (m : ℝ) from Nat.cast_nonneg m]
    have := Set.Icc_union_Icc_eq_Icc h1 h2
    push_cast
    push_cast at this
    convert this using 3

/-- Ascending bands: the n cells [a+cd, a+(c+1)d], c = 0..n-1, tile
[a, a+nd]. -/
lemma biUnion_Icc_asc (a d : ℝ) (hd : 0 ≤ d) :
    ∀ n : ℕ, (⋃ c ∈ Finset.range (n + 1),
        Set.Icc (a + (c : ℝ) * d) (a + ((c : ℝ) + 1) * d))
      = Set.Icc a (a + ((n : ℝ) + 1) * d) := by
  intro n
  induction n with
  | zero => simp
  | succ m ih =>
    rw [Finset.range_succ, Finset.set_biUnion_insert, ih, Set.union_comm]
    have h1 : a ≤ a + ((m : ℝ) + 1) * d := by nlinarith [show (0 : ℝ) ≤ (m : ℝ) from Nat.cast_nonneg m]
    have h2 : a + ((m : ℝ) + 1) * d ≤ a + (((m : ℝ) + 1) + 1) * d := by nlinarith
    have := Set.Icc_union_Icc_eq_Icc h1 h2
    push_cast
    push_cast at this
    convert this using 3

/-- A union of rectangles with independently varying sides is the rectangle
of the unions. -/
lemma biUnion_prod_eq {α β : Type} (s t : Finset ℕ) (A : ℕ → Set α) (B : ℕ → Set β) :
    (⋃ r ∈ s, ⋃ c ∈ t, A r ×ˢ B c) = (⋃ r ∈ s, A r) ×ˢ (⋃ c ∈ t, B c) := by
  ext p
  simp only [Set.mem_iUnion, Set.mem_prod]
  constructor
  · rintro ⟨r, hr, c, hc, h1, h2⟩
    exact ⟨⟨r, hr, h1⟩, ⟨c, hc, h2⟩⟩
  · rintro ⟨⟨r, hr, h1⟩, ⟨c, hc, h2⟩⟩
    exact ⟨r, hr, c, hc, h1, h2⟩

/-- Distinct descending open bands are disjoint. -/
lemma Ioo_desc_disjoint (b d : ℝ) (hd : 0 ≤ d) {r r' : ℕ} (hne : r ≠ r') :
    Disjoint (Set.Ioo (b - ((r : ℝ) + 1) * d) (b - (r : ℝ) * d))
      (Set.Ioo (b - ((r' : ℝ) + 1) * d) (b - (r' : ℝ) * d)) := by
  have key : ∀ u v : ℕ, u < v →
      Disjoint (Set.Ioo (b - ((u : ℝ) + 1) * d) (b - (u : ℝ) * d))
        (Set.Ioo (b - ((v : ℝ) + 1) * d) (b - (v : ℝ) * d)) := by
    intro u v huv
    rw [Set.disjoint_left]
    rintro x ⟨h1, _⟩ ⟨_, h4⟩
    have hcast : ((u : ℝ) + 1) ≤ (v : ℝ) := by exact_mod_cast huv
    have : ((u : ℝ) + 1) * d ≤ (v : ℝ) * d := mul_le_mul_of_nonneg_right hcast hd
    linarith
  rcases hne.lt_or_lt with h | h
  · exact key r r' h
  · exact (key r' r h).symm

/-- Distinct ascending open bands are disjoint. -/
lemma Ioo_asc_disjoint (a d : ℝ) (hd : 0 ≤ d) {c c' : ℕ} (hne : c ≠ c') :
    Disjoint (Set.Ioo (a + (c : ℝ) * d) (a + ((c : ℝ) + 1) * d))
      (Set.Ioo (a + (c' : ℝ) * d) (a + ((c' : ℝ) + 1) * d)) := by
  have key : ∀ u v : ℕ, u < v →
      Disjoint (Set.Ioo (a + (u : ℝ) * d) (a + ((u : ℝ) + 1) * d))
        (Set.Ioo (a + (v : ℝ) * d) (a + ((v : ℝ) + 1) * d)) := by
    intro u v huv
    rw [Set.disjoint_left]
    rintro x ⟨_, h2⟩ ⟨h3, _⟩
    have hcast : ((u : ℝ) + 1) ≤ (v : ℝ) := by exact_mod_cast huv
    have : ((u : ℝ) + 1) * d ≤ (v : ℝ) * d := mul_le_mul_of_nonneg_right hcast hd
    linarith
  rcases hne.lt_or_lt with h | h
  · exact key c c' h
  · exact (key c' c h).symm

/-! ### Geometry of the zone grid -/

lemma cos_deg_pos {lat : ℝ} (h1 : -90 < lat) (h2 : lat < 90) :
    0 < Real.cos (lat * Real.pi / 180) := by
  have hpi := Real.pi_pos
  apply Real.cos_pos_of_mem_Ioo
  constructor
  · have := mul_lt_mul_of_pos_right h1 (show (0:ℝ) < Real.pi / 180 by positivity)
    calc -(Real.pi / 2) = -90 * (Real.pi / 180) := by ring
    _ < lat * (Real.pi / 180) := this
    _ = lat * Real.pi / 180 := by ring
  · have := mul_lt_mul_of_pos_right h2 (show (0:ℝ) < Real.pi / 180 by positivity)
    calc lat * Real.pi / 180 = lat * (Real.pi / 180) := by ring
    _ < 90 * (Real.pi / 180) := this
    _ = Real.pi / 2 := by ring

lemma lonDegDivisor_pos {lat : ℝ} (h1 : -90 < lat) (h2 : lat < 90) :
    0 < lonDegDivisor lat := by
  have := cos_deg_pos h1 h2
  unfold lonDegDivisor
  positivity

lemma sideLengthM_pos {area : ℝ} (h : 0 < area) : 0 < sideLengthM area := by
  unfold sideLengthM
  exact Real.sqrt_pos.mpr (by positivity)

lemma halfSideLat_pos {area : ℝ} (h : 0 < area) : 0 < halfSideLat area := by
  have := sideLengthM_pos h
  unfold halfSideLat latDegPerMeter
  positivity

lemma halfSideLon_pos {lat area : ℝ} (h1 : -90 < lat) (h2 : lat < 90) (h : 0 < area) :
    0 < halfSideLon lat area := by
  have hs := sideLengthM_pos h
  have hd := lonDegDivisor_pos h1 h2
  unfold halfSideLon lonDegPerMeter
  positivity

lemma zoneHeight_pos {lat area : ℝ} {rows : ℕ} (h : 0 < area) (hrows : 0 < rows) :
    0 < zoneHeight lat area rows := by
  have := halfSideLat_pos h
  unfold zoneHeight farmNorth farmSouth
  apply div_pos (by linarith) (by exact_mod_cast hrows)

lemma zoneWidth_pos {lat lon area : ℝ} {cols : ℕ} (h1 : -90 < lat) (h2 : lat < 90)
    (h : 0 < area) (hcols : 0 < cols) : 0 < zoneWidth lat lon area cols := by
  have := halfSideLon_pos h1 h2 h
  unfold zoneWidth farmEast farmWest
  apply div_pos (by linarith) (by exact_mod_cast hcols)

/-- rows equal bands of height (north - south) / rows span the whole
north-south extent. -/
lemma rows_mul_zoneHeight (lat area : ℝ) {rows : ℕ} (hrows : 0 < rows) :
    (rows : ℝ) * zoneHeight lat area rows
      = farmNorth lat area - farmSouth lat area := by
  have hx : (rows : ℝ) ≠ 0 := by exact_mod_cast hrows.ne'
  unfold zoneHeight
  field_simp

lemma cols_mul_zoneWidth (lat lon area : ℝ) {cols : ℕ} (hcols : 0 < cols) :
    (cols : ℝ) * zoneWidth lat lon area cols
      = farmEast lat lon area - farmWest lat lon area := by
  have hx : (cols : ℝ) ≠ 0 := by exact_mod_cast hcols.ne'
  unfold zoneWidth
  field_simp

/-- The bounds returned for cell (row, col), written with explicit band
arithmetic. -/
lemma calculateZoneBounds_eq (lat lon area : ℝ) (rows cols row col : ℕ) :
    calculateZoneBounds lat lon area rows cols row col =
      ((farmNorth lat area - ((row : ℝ) + 1) * zoneHeight lat area rows,
        farmWest lat lon area + (col : ℝ) * zoneWidth lat lon area cols),
       (farmNorth lat area - (row : ℝ) * zoneHeight lat area rows,
        farmWest lat lon area + ((col : ℝ) + 1) * zoneWidth lat lon area cols)) := by
  simp only [calculateZoneBounds, Prod.mk.injEq]
  refine ⟨⟨by ring, trivial⟩, trivial, by ring⟩

lemma cellSet_eq (lat lon area : ℝ) (rows cols row col : ℕ) :
    cellSet lat lon area rows cols row col =
      Set.Icc (farmNorth lat area - ((row : ℝ) + 1) * zoneHeight lat area rows)
          (farmNorth lat area - (row : ℝ) * zoneHeight lat area rows)
        ×ˢ Set.Icc (farmWest lat lon area + (col : ℝ) * zoneWidth lat lon area cols)
          (farmWest lat lon area + ((col : ℝ) + 1) * zoneWidth lat lon area cols) := by
  rw [cellSet, calculateZoneBounds_eq]

lemma openCellSet_eq (lat lon area : ℝ) (rows cols row col : ℕ) :
    openCellSet lat lon area rows cols row col =
      Set.Ioo (farmNorth lat area - ((row : ℝ) + 1) * zoneHeight lat area rows)
          (farmNorth lat area - (row : ℝ) * zoneHeight lat area rows)
        ×ˢ Set.Ioo (farmWest lat lon area + (col : ℝ) * zoneWidth lat lon area cols)
          (farmWest lat lon area + ((col : ℝ) + 1) * zoneWidth lat lon area cols) := by
  rw [openCellSet, calculateZoneBounds_eq]

/-- The closed cells of the grid tile the farm square exactly. -/
lemma cellSet_biUnion (lat lon area : ℝ) {rows cols : ℕ}
    (hrows : 0 < rows) (hcols : 0 < cols)
    (hh : 0 ≤ zoneHeight lat area rows) (hw : 0 ≤ zoneWidth lat lon area cols) :
    (⋃ r ∈ Finset.range rows, ⋃ c ∈ Finset.range cols,
        cellSet lat lon area rows cols r c)
      = farmSquare lat lon area := by
  obtain ⟨m, rfl⟩ : ∃ m, rows = m + 1 := ⟨rows - 1, by omega⟩
  obtain ⟨k, rfl⟩ : ∃ k, cols = k + 1 := ⟨cols - 1, by omega⟩
  have hbody : ∀ r c : ℕ, cellSet lat lon area (m + 1) (k + 1) r c =
      Set.Icc (farmNorth lat area - ((r : ℝ) + 1) * zoneHeight lat area (m + 1))
          (farmNorth lat area - (r : ℝ) * zoneHeight lat area (m + 1))
        ×ˢ Set.Icc
          (farmWest lat lon area + (c : ℝ) * zoneWidth lat lon area (k + 1))
          (farmWest lat lon area + ((c : ℝ) + 1) * zoneWidth lat lon area (k + 1)) :=
    fun r c => cellSet_eq lat lon area (m + 1) (k + 1) r c
  calc (⋃ r ∈ Finset.range (m + 1), ⋃ c ∈ Finset.range (k + 1),
        cellSet lat lon area (m + 1) (k + 1) r c)
      = (⋃ r ∈ Finset.range (m + 1),
          Set.Icc (farmNorth lat area - ((r : ℝ) + 1) * zoneHeight lat area (m + 1))
            (farmNorth lat area - (r : ℝ) * zoneHeight lat area (m + 1)))
        ×ˢ (⋃ c ∈ Finset.range (k + 1),
          Set.Icc (farmWest lat lon area + (c : ℝ) * zoneWidth lat lon area (k + 1))
            (farmWest lat lon area + ((c : ℝ) + 1) * zoneWidth lat lon area (k + 1))) := by
        simp only [hbody]
        exact biUnion_prod_eq _ _ _ _
    _ = Set.Icc (farmNorth lat area - ((m : ℝ) + 1) * zoneHeight lat area (m + 1))
          (farmNorth lat area)
        ×ˢ Set.Icc (farmWest lat lon area)
          (farmWest lat lon area + ((k : ℝ) + 1) * zoneWidth lat lon area (k + 1)) := by
        rw [biUnion_Icc_desc _ _ hh m, biUnion_Icc_asc _ _ hw k]
    _ = farmSquare lat lon area := by
        have h1 : ((m : ℝ) + 1) * zoneHeight lat area (m + 1)
            = farmNorth lat area - farmSouth lat area := by
          have := rows_mul_zoneHeight lat area (show 0 < m + 1 by omega)
          push_cast at this
          exact this
        have h2 : ((k : ℝ) + 1) * zoneWidth lat lon area (k + 1)
            = farmEast lat lon area - farmWest lat lon area := by
          have := cols_mul_zoneWidth lat lon area (show 0 < k + 1 by omega)
          push_cast at this
          exact this
        rw [h1, h2, farmSquare]
        have e1 : farmNorth lat area - (farmNorth lat area - farmSouth lat area)
            = farmSouth lat area := by ring
        have e2 : farmWest lat lon area
              + (farmEast lat lon area - farmWest lat lon area)
            = farmEast lat lon area := by ring
        rw [e1, e2]

/-- Distinct cells have disjoint interiors: zones overlap at most on their
shared boundary edges. -/
lemma openCellSet_disjoint (lat lon area : ℝ) (rows cols : ℕ)
    (hh : 0 ≤ zoneHeight lat area rows) (hw : 0 ≤ zoneWidth lat lon area cols)
    {r c r' c' : ℕ} (hne : (r, c) ≠ (r', c')) :
    Disjoint (openCellSet lat lon area rows cols r c)
      (openCellSet lat lon area rows cols r' c') := by
  rw [Set.disjoint_left]
  rintro ⟨x, y⟩ hp hq
  rw [openCellSet_eq, Set.mem_prod] at hp hq
  by_cases hr : r = r'
  · subst hr
    have hc : c ≠ c' := by
      intro h; exact hne (by rw [h])
    exact Set.disjoint_left.mp
      (Ioo_asc_disjoint (farmWest lat lon area) (zoneWidth lat lon area cols) hw hc)
      hp.2 hq.2
  · exact Set.disjoint_left.mp
      (Ioo_desc_disjoint (farmNorth lat area) (zoneHeight lat area rows) hh hr)
      hp.1 hq.1

/-! ## Claim theorems -/

/-- C2: health-score classification is a total function on [0, 100]: every
score falls in exactly one of the four bands, with score at least 75
healthy, in [55, 75) moderate, in [35, 55) degraded (labelled Needs
Attention in the gauge), below 35 critical; the boundaries 75, 55 and 35
belong to the higher band, and getHealthConfig and getHealthColor agree on
the bands. -/
theorem healthClassification_total (s : ℚ) (_h0 : 0 ≤ s) (_h100 : s ≤ 100) :
    HealthBandsSpec s := by
  unfold HealthBandsSpec getHealthConfig getHealthColor
  split_ifs with h1 h2 h3 <;>
    refine ⟨?_, ?_, ?_, ?_⟩ <;> simp <;>
      first | linarith | (constructor <;> linarith) | (intro h; linarith)

/-- C2 witness: the boundary score 75 is classified healthy and in no other
band. -/
theorem healthClassification_total_witness : HealthBandsSpec 75 :=
  healthClassification_total 75 (by norm_num) (by norm_num)

/-- C8: for every positive area the grid tier selection is the step
function of the spec table, each tier selected exactly on its area range,
with the boundary values 2, 10 and 50 belonging to the upper tier. -/
theorem gridTier_step (a : ℚ) (_ha : 0 < a) :
    GridTierSpec a ∧ gridTier 2 = (3, 3, 10) ∧ gridTier 10 = (4, 4, 30) ∧
      gridTier 50 = (5, 5, 30) := by
  refine ⟨?_, by decide, by decide, by decide⟩
  unfold GridTierSpec gridTier
  split_ifs with h1 h2 h3 <;>
    refine ⟨?_, ?_, ?_, ?_⟩ <;> simp <;>
      first | linarith | (constructor <;> linarith) | (intro h; linarith)

/-- C8 witness: the boundary area 2 selects the 3 by 3 tier. -/
theorem gridTier_step_witness :
    GridTierSpec 2 ∧ gridTier 2 = (3, 3, 10) ∧ gridTier 10 = (4, 4, 30) ∧
      gridTier 50 = (5, 5, 30) :=
  gridTier_step 2 (by norm_num)

/-- The farms CHECK constraints coincide with the invariant as the claim
words it. -/
lemma farmsCheck_iff (r : FarmRow) : farmsCheck r ↔ FarmInvariant r := by
  unfold farmsCheck FarmInvariant
  constructor
  · rintro ⟨ha, ⟨hlat1, hlat2, hlng1, hlng2⟩, hd⟩
    refine ⟨ha, hlat1, hlat2, hlng1, hlng2, ?_⟩
    intro p h hp hh
    rw [hp, hh] at hd
    simpa [validDatesCheck] using hd
  · rintro ⟨ha, hlat1, hlat2, hlng1, hlng2, hd⟩
    refine ⟨ha, ⟨hlat1, hlat2, hlng1, hlng2⟩, ?_⟩
    unfold validDatesCheck
    rcases hp : r.planting_date with _ | p
    · simp
    · rcases hh : r.harvest_date with _ | h
      · simp
      · simpa using hd p h hp hh

/-- C9: every stored farm record satisfies the invariant (positive area,
coordinates in range, harvest strictly after planting when both dates are
set), and farm creation rejects any violating input before a record is
created. -/
theorem insertFarm_invariant :
    (∀ r r', insertFarm r = some r' → r' = r ∧ FarmInvariant r') ∧
    (∀ r, ¬ FarmInvariant r → insertFarm r = none) := by
  constructor
  · intro r r' h
    unfold insertFarm at h
    split_ifs at h with hc
    cases h
    exact ⟨rfl, (farmsCheck_iff r).mp hc⟩
  · intro r h
    unfold insertFarm
    rw [if_neg (fun hc => h ((farmsCheck_iff r).mp hc))]

/-- C9 witness: a concrete valid row is stored unchanged and satisfies the
invariant. -/
theorem insertFarm_invariant_witness : sampleFarm = sampleFarm ∧ FarmInvariant sampleFarm :=
  insertFarm_invariant.1 sampleFarm sampleFarm (by decide)

/-- C1: for every farm center with latitude strictly between the poles,
positive area, positive grid dimensions and in-range cell index,
calculateZoneBounds returns the (row, col) cell of the equal rows-by-cols
partition of the farm bounding square: the closed cells tile the square
exactly with no gap, distinct open cells never overlap, adjacent cells
share edges, row 0 is the northernmost band, column 0 the westernmost, and
cell (rows-1, cols-1) is the southeast-most. -/
theorem calculateZoneBounds_partitions (lat lon area : ℝ) (rows cols row col : ℕ)
    (harea : 0 < area) (hlat1 : -90 < lat) (hlat2 : lat < 90)
    (hrows : 0 < rows) (hcols : 0 < cols) (_hrow : row < rows) (_hcol : col < cols) :
    ZonePartition lat lon area rows cols row col := by
  have hh : 0 < zoneHeight lat area rows := zoneHeight_pos harea hrows
  have hw : 0 < zoneWidth lat lon area cols := zoneWidth_pos hlat1 hlat2 harea hcols
  have hrm := rows_mul_zoneHeight lat area hrows
  have hcm := cols_mul_zoneWidth lat lon area hcols
  have hrcast : ((rows - 1 : ℕ) : ℝ) = (rows : ℝ) - 1 := by
    rw [Nat.cast_sub (by omega : 1 ≤ rows)]; norm_num
  have hccast : ((cols - 1 : ℕ) : ℝ) = (cols : ℝ) - 1 := by
    rw [Nat.cast_sub (by omega : 1 ≤ cols)]; norm_num
  refine ⟨calculateZoneBounds_eq lat lon area rows cols row col,
    cellSet_biUnion lat lon area hrows hcols hh.le hw.le,
    fun r c r' c' hne => openCellSet_disjoint lat lon area rows cols hh.le hw.le hne,
    ?_, ?_, ?_, ?_, ?_, ?_, ?_, ?_⟩
  · intro r c
    rw [calculateZoneBounds_eq, calculateZoneBounds_eq]
    dsimp only
    push_cast
    ring
  · intro r c
    rw [calculateZoneBounds_eq, calculateZoneBounds_eq]
    dsimp only
    push_cast
    ring
  · intro c
    rw [calculateZoneBounds_eq]
    dsimp only
    push_cast
    ring
  · intro r
    rw [calculateZoneBounds_eq]
    dsimp only
    push_cast
    ring
  · intro r r' c hrr
    rw [calculateZoneBounds_eq, calculateZoneBounds_eq]
    dsimp only
    have : ((r : ℝ)) * zoneHeight lat area rows ≤ (r' : ℝ) * zoneHeight lat area rows :=
      mul_le_mul_of_nonneg_right (by exact_mod_cast hrr) hh.le
    linarith
  · intro c c' r hcc
    rw [calculateZoneBounds_eq, calculateZoneBounds_eq]
    dsimp only
    have : ((c : ℝ)) * zoneWidth lat lon area cols ≤ (c' : ℝ) * zoneWidth lat lon area cols :=
      mul_le_mul_of_nonneg_right (by exact_mod_cast hcc) hw.le
    linarith
  · rw [calculateZoneBounds_eq]
    dsimp only
    rw [hrcast]
    linear_combination -hrm
  · rw [calculateZoneBounds_eq]
    dsimp only
    rw [hccast]
    linear_combination hcm

/-- C1 witness: a concrete 2 by 2 partition of a 1-hectare farm at the
origin. -/
theorem calculateZoneBounds_partitions_witness : ZonePartition 0 0 1 2 2 0 0 :=
  calculateZoneBounds_partitions 0 0 1 2 2 0 0 (by norm_num) (by norm_num)
    (by norm_num) (by norm_num) (by norm_num) (by norm_num) (by norm_num)

/-- C10: the meters-to-longitude-degrees divisor 111320 * cos(lat * pi/180)
is nonzero exactly for latitudes strictly between the poles: within the
Farm invariant range [-90, 90] the conversion is well defined iff
the absolute latitude is below 90, and at the poles the divisor vanishes,
so the bounding-box computation is only meaningful under the stronger
precondition. -/
theorem lonDegDivisor_ne_zero_iff (lat : ℝ) (h1 : -90 ≤ lat) (h2 : lat ≤ 90) :
    (lonDegDivisor lat ≠ 0 ↔ -90 < lat ∧ lat < 90) ∧
    lonDegDivisor 90 = 0 ∧ lonDegDivisor (-90) = 0 := by
  have hp90 : lonDegDivisor 90 = 0 := by
    unfold lonDegDivisor
    rw [show (90 : ℝ) * Real.pi / 180 = Real.pi / 2 by ring, Real.cos_pi_div_two, mul_zero]
  have hm90 : lonDegDivisor (-90) = 0 := by
    unfold lonDegDivisor
    rw [show (-90 : ℝ) * Real.pi / 180 = -(Real.pi / 2) by ring, Real.cos_neg,
      Real.cos_pi_div_two, mul_zero]
  refine ⟨⟨?_, fun h => (lonDegDivisor_pos h.1 h.2).ne'⟩, hp90, hm90⟩
  intro hne
  by_contra hcon
  push_neg at hcon
  rcases lt_or_le (-90) lat with hgt | hle
  · have : lat = 90 := le_antisymm h2 (hcon hgt)
    exact hne (this ▸ hp90)
  · have : lat = -90 := le_antisymm (by linarith) h1
    exact hne (this ▸ hm90)

/-- C10 witness: at the equator the divisor is nonzero. -/
theorem lonDegDivisor_ne_zero_iff_witness : lonDegDivisor 0 ≠ 0 :=
  ((lonDegDivisor_ne_zero_iff 0 (by norm_num) (by norm_num)).1).mpr
    ⟨by norm_num, by norm_num⟩

/-- C7 counterexample: for the out-of-range index (5, 5) on a 2 by 2 grid
over a 1-hectare farm at the origin, calculateZoneBounds does not fail: it
returns a bounding box, one lying strictly south of the farm square and
distinct from every clamped in-range cell such as (1, 1). -/
theorem calculateZoneBounds_out_of_range_returns_box :
    (calculateZoneBounds 0 0 1 2 2 5 5).2.1 < farmSouth 0 1 ∧
    calculateZoneBounds 0 0 1 2 2 5 5 ≠ calculateZoneBounds 0 0 1 2 2 1 1 := by
  have hsqrt : sideLengthM 1 = 100 := by
    unfold sideLengthM
    rw [show (1 : ℝ) * 10000 = 100 ^ 2 by norm_num]
    exact Real.sqrt_sq (by norm_num)
  have hdiv : lonDegDivisor 0 = 111320 := by
    unfold lonDegDivisor
    rw [show (0 : ℝ) * Real.pi / 180 = 0 by ring, Real.cos_zero, mul_one]
  have hside : zoneHeight 0 1 2 = 100 / 2 / 111320 := by
    unfold zoneHeight farmNorth farmSouth halfSideLat latDegPerMeter
    rw [hsqrt]
    norm_num
  have hN : farmNorth 0 1 = 100 / 2 / 111320 := by
    unfold farmNorth halfSideLat latDegPerMeter
    rw [hsqrt]
    norm_num
  have hS : farmSouth 0 1 = -(100 / 2 / 111320) := by
    unfold farmSouth halfSideLat latDegPerMeter
    rw [hsqrt]
    norm_num
  constructor
  · rw [calculateZoneBounds_eq]
    dsimp only
    rw [hS, hN, hside]
    norm_num
  · intro heq
    have := congrArg (fun p => p.2.1) heq
    rw [calculateZoneBounds_eq, calculateZoneBounds_eq] at this
    dsimp only at this
    rw [hN, hside] at this
    norm_num at this

/-- C7 amended: calculateZoneBounds performs no index validation: an index
with row at least rows and col at least cols still returns a linearly
extrapolated bounding box, one lying on or beyond the farm square's south
and east edges, rather than failing or clamping into range. -/
theorem calculateZoneBounds_extrapolates (lat lon area : ℝ) (rows cols row col : ℕ)
    (harea : 0 < area) (hlat1 : -90 < lat) (hlat2 : lat < 90)
    (hrows : 0 < rows) (hcols : 0 < cols) (hrow : rows ≤ row) (hcol : cols ≤ col) :
    (calculateZoneBounds lat lon area rows cols row col).2.1 ≤ farmSouth lat area ∧
    farmEast lat lon area ≤ (calculateZoneBounds lat lon area rows cols row col).1.2 := by
  have hh : 0 < zoneHeight lat area rows := zoneHeight_pos harea hrows
  have hw : 0 < zoneWidth lat lon area cols := zoneWidth_pos hlat1 hlat2 harea hcols
  have hrm := rows_mul_zoneHeight lat area hrows
  have hcm := cols_mul_zoneWidth lat lon area hcols
  have hr : ((rows : ℝ)) * zoneHeight lat area rows ≤ (row : ℝ) * zoneHeight lat area rows :=
    mul_le_mul_of_nonneg_right (by exact_mod_cast hrow) hh.le
  have hc : ((cols : ℝ)) * zoneWidth lat lon area cols ≤ (col : ℝ) * zoneWidth lat lon area cols :=
    mul_le_mul_of_nonneg_right (by exact_mod_cast hcol) hw.le
  rw [calculateZoneBounds_eq]
  dsimp only
  constructor <;> linarith

/-- C7 amended witness: the (2, 2) index on a 2 by 2 grid already lands on
or beyond the south and east edges. -/
theorem calculateZoneBounds_extrapolates_witness :
    (calculateZoneBounds 0 0 1 2 2 2 2).2.1 ≤ farmSouth 0 1 ∧
    farmEast 0 0 1 ≤ (calculateZoneBounds 0 0 1 2 2 2 2).1.2 :=
  calculateZoneBounds_extrapolates 0 0 1 2 2 2 2 (by norm_num) (by norm_num)
    (by norm_num) (by norm_num) (by norm_num) (by norm_num) (by norm_num)

/-- C3: against a store that never returns a terminal state, the polling
loop performs exactly maxAttempts = 30 fetches with one fixed 2000 ms sleep
before each fetch (so one sleep between each pair of consecutive fetches),
then stops and reports the timeout failure. -/
theorem poll_never_terminal_timeout (store : ℕ → AnalysisRecord)
    (initial : AnalysisRecord) (hinit : nonTerminal initial)
    (hstore : ∀ j, nonTerminal (store j)) :
    poll store initial = (.failure analysisTimeoutMsg, pollTrace maxAttempts 1) ∧
    fetchCount (poll store initial).2 = 30 ∧
    sleepCount (poll store initial).2 = 30 ∧
    maxAttempts = 30 ∧ pollIntervalMs = 2000 := by
  have h : poll store initial = (.failure analysisTimeoutMsg, pollTrace maxAttempts 1) :=
    pollAux_nonterminal store maxAttempts 1 initial hinit (fun i _ _ => hstore i)
  refine ⟨h, ?_, ?_, rfl, rfl⟩
  · rw [h]
    exact pollTrace_fetchCount maxAttempts 1
  · rw [h]
    exact pollTrace_sleepCount maxAttempts 1

/-- C3 witness: a store stuck in processing times out after 30 fetches. -/
theorem poll_never_terminal_timeout_witness :
    poll processingStore pendingInit
        = (.failure analysisTimeoutMsg, pollTrace maxAttempts 1) ∧
    fetchCount (poll processingStore pendingInit).2 = 30 ∧
    sleepCount (poll processingStore pendingInit).2 = 30 ∧
    maxAttempts = 30 ∧ pollIntervalMs = 2000 :=
  poll_never_terminal_timeout processingStore pendingInit (Or.inl rfl)
    (fun _ => Or.inr rfl)

/-- C6: against a store that returns pending on its first N fetches and
completed on fetch N + 1, with N below the attempt budget, the polling loop
returns the completed record after exactly N + 1 fetches, with one
fixed-interval sleep before each fetch. -/
theorem poll_completes_after (store : ℕ → AnalysisRecord) (initial : AnalysisRecord)
    (N : ℕ) (hN : N < maxAttempts) (hinit : nonTerminal initial)
    (hpend : ∀ j, 1 ≤ j → j ≤ N → (store j).status = .pending)
    (hcomp : (store (N + 1)).status = .completed) :
    poll store initial = (.success (store (N + 1)), pollTrace (N + 1) 1) ∧
    fetchCount (poll store initial).2 = N + 1 ∧
    sleepCount (poll store initial).2 = N + 1 := by
  have harith : 1 + N = N + 1 := by omega
  have h := pollAux_completes store N maxAttempts 1 initial hinit hN
    (fun i hi1 hi2 => Or.inl (hpend i hi1 (by omega)))
    (by rw [harith]; exact hcomp)
  rw [harith] at h
  have hp : poll store initial = (.success (store (N + 1)), pollTrace (N + 1) 1) := h
  refine ⟨hp, ?_, ?_⟩
  · rw [hp]
    exact pollTrace_fetchCount (N + 1) 1
  · rw [hp]
    exact pollTrace_sleepCount (N + 1) 1

/-- C6 witness: a store already completed on fetch 1 returns after exactly
one fetch. -/
theorem poll_completes_after_witness :
    poll completedStore pendingInit
        = (.success (completedStore 1), pollTrace 1 1) ∧
    fetchCount (poll completedStore pendingInit).2 = 1 ∧
    sleepCount (poll completedStore pendingInit).2 = 1 :=
  poll_completes_after completedStore pendingInit 0 (by norm_num [maxAttempts])
    (Or.inl rfl) (fun j hj1 hj2 => absurd (le_trans hj1 hj2) (by norm_num)) rfl

/-- C4 counterexample: with a stored error message of sensor offline on the
failed record seen at fetch 1, the loop stops but surfaces the fixed string
Analysis failed, not the stored message, so the stored error message is not
surfaced unchanged. -/
theorem poll_failed_message_not_surfaced :
    (poll failStore pendingInit).1 = .failure analysisFailedMsg ∧
    (failStore 1).error = some "sensor offline" ∧
    analysisFailedMsg ≠ "sensor offline" ∧
    (poll failStore pendingInit).1 ≠ .failure "sensor offline" := by
  refine ⟨?_, rfl, by decide, ?_⟩ <;> decide

/-- C4 amended: when the record fetched at attempt k (between 1 and
maxAttempts) is the first with status failed, the loop stops at fetch k —
it performs no fetch k + 1 — and reports a failure; the surfaced message is
the fixed string Analysis failed when k is below the attempt budget, and
the timeout message when the failure arrives exactly on the last budgeted
fetch; the error message stored on the record is not consulted. -/
theorem poll_failed_stops (store : ℕ → AnalysisRecord) (initial : AnalysisRecord)
    (k : ℕ) (hk1 : 1 ≤ k) (hk : k ≤ maxAttempts) (hinit : nonTerminal initial)
    (hpre : ∀ j, 1 ≤ j → j < k → nonTerminal (store j))
    (hfail : (store k).status = .failed) :
    poll store initial =
      (.failure (if k < maxAttempts then analysisFailedMsg else analysisTimeoutMsg),
       pollTrace k 1) ∧
    fetchCount (poll store initial).2 = k := by
  obtain ⟨n, rfl⟩ : ∃ n, k = n + 1 := ⟨k - 1, by omega⟩
  have harith : 1 + n = n + 1 := by omega
  have h := pollAux_fails store n maxAttempts 1 initial hinit (by omega)
    (fun i hi1 hi2 => hpre i hi1 (by omega))
    (by rw [harith]; exact hfail)
  have hp : poll store initial =
      (.failure (if n + 1 < maxAttempts then analysisFailedMsg else analysisTimeoutMsg),
       pollTrace (n + 1) 1) := h
  refine ⟨hp, ?_⟩
  rw [hp]
  exact pollTrace_fetchCount (n + 1) 1

/-- C4 amended witness: a failure on fetch 1 stops the loop after one fetch
with the fixed failure message. -/
theorem poll_failed_stops_witness :
    poll failStore pendingInit =
      (.failure (if 1 < maxAttempts then analysisFailedMsg else analysisTimeoutMsg),
       pollTrace 1 1) ∧
    fetchCount (poll failStore pendingInit).2 = 1 :=
  poll_failed_stops failStore pendingInit 1 le_rfl (by norm_num [maxAttempts])
    (Or.inl rfl) (fun j hj1 hj2 => absurd (lt_of_le_of_lt hj1 hj2) (by norm_num)) rfl

/-- C5 counterexample: a store that stays processing through fetch 29 and
is failed on fetch 30 — the last fetched record has status failed — is
reported with the timeout message, so a run ending on a failed record is
not always distinguishable from a timeout. -/
theorem poll_failed_on_last_fetch_reported_as_timeout :
    (poll lateFailStore pendingInit).1 = .failure analysisTimeoutMsg ∧
    (lateFailStore 30).status = .failed := by
  have h := pollAux_fails lateFailStore 29 maxAttempts 1 pendingInit (Or.inl rfl)
    (by norm_num [maxAttempts])
    (fun i hi1 hi2 => Or.inr (by simp [lateFailStore, show i < 30 by omega]))
    (by simp [lateFailStore])
  constructor
  · have hp : (poll lateFailStore pendingInit).1
        = .failure (if 29 + 1 < maxAttempts then analysisFailedMsg else analysisTimeoutMsg) := by
      rw [poll, h]
    rw [hp]
    norm_num [maxAttempts]
  · simp [lateFailStore]

/-- C5 amended: success, worker failure observed before the attempt budget
is exhausted, and timeout are pairwise distinguishable in the returned
result — the two failure kinds carry distinct fixed messages, a run all of
whose 30 fetches stay non-terminal is reported with the timeout message and
never as a worker failure — but a record first seen failed exactly on fetch
30 is also reported with the timeout message, not as a worker failure. -/
theorem poll_outcomes_distinguishable :
    analysisFailedMsg ≠ analysisTimeoutMsg ∧
    (∀ (store : ℕ → AnalysisRecord) (initial : AnalysisRecord) (k : ℕ),
      1 ≤ k → k < maxAttempts → nonTerminal initial →
      (∀ j, 1 ≤ j → j < k → nonTerminal (store j)) →
      (store k).status = .failed →
      (poll store initial).1 = .failure analysisFailedMsg) ∧
    (∀ (store : ℕ → AnalysisRecord) (initial : AnalysisRecord),
      nonTerminal initial → (∀ j, 1 ≤ j → j ≤ maxAttempts → nonTerminal (store j)) →
      (poll store initial).1 = .failure analysisTimeoutMsg) ∧
    (∀ (store : ℕ → AnalysisRecord) (initial : AnalysisRecord),
      nonTerminal initial →
      (∀ j, 1 ≤ j → j < maxAttempts → nonTerminal (store j)) →
      (store maxAttempts).status = .failed →
      (poll store initial).1 = .failure analysisTimeoutMsg) := by
  refine ⟨by decide, ?_, ?_, ?_⟩
  · intro store initial k hk1 hk hinit hpre hfail
    obtain ⟨n, rfl⟩ : ∃ n, k = n + 1 := ⟨k - 1, by omega⟩
    have harith : 1 + n = n + 1 := by omega
    have h := pollAux_fails store n maxAttempts 1 initial hinit (by omega)
      (fun i hi1 hi2 => hpre i hi1 (by omega))
      (by rw [harith]; exact hfail)
    have hp : (poll store initial).1
        = .failure (if n + 1 < maxAttempts then analysisFailedMsg else analysisTimeoutMsg) := by
      rw [poll, h]
    rw [hp, if_pos hk]
  · intro store initial hinit hstore
    have h := pollAux_nonterminal store maxAttempts 1 initial hinit
      (fun i hi1 hi2 => hstore i hi1 (by omega))
    rw [poll, h]
  · intro store initial hinit hpre hfail
    have harith : 1 + (maxAttempts - 1) = maxAttempts := by norm_num [maxAttempts]
    have h := pollAux_fails store (maxAttempts - 1) maxAttempts 1 initial hinit
      (by norm_num [maxAttempts])
      (fun i hi1 hi2 => hpre i hi1 (by omega))
      (by rw [harith]; exact hfail)
    have hp : (poll store initial).1
        = .failure (if maxAttempts - 1 + 1 < maxAttempts then analysisFailedMsg
            else analysisTimeoutMsg) := by
      rw [poll, h]
    rw [hp, if_neg (by norm_num [maxAttempts])]

/-- C5 amended witness: a failure on fetch 1 is reported with the fixed
failure message, distinct from the timeout message. -/
theorem poll_outcomes_distinguishable_witness :
    analysisFailedMsg ≠ analysisTimeoutMsg ∧
    (poll failStore pendingInit).1 = .failure analysisFailedMsg :=
  ⟨poll_outcomes_distinguishable.1,
    poll_outcomes_distinguishable.2.1 failStore pendingInit 1 le_rfl
      (by norm_num [maxAttempts]) (Or.inl rfl)
      (fun j hj1 hj2 => absurd (lt_of_le_of_lt hj1 hj2) (by norm_num)) rfl⟩
